import Mathlib

set_option autoImplicit false

/-!
Shallow embedding of the multivm version-unification layer:
the unified `VmInterface` execution contract with its default (provided)
methods, the `vm_virtual_blocks` composite `TracerDispatcher`, and the
`vm_1_3_2` version adapter with its bytecode-dependency compression
protocol.  Pure data is embedded directly; the external interpreter engine
(`VmInstance`, out of scope for this layer) is an abstract record of
operations, and Rust's `&mut` state is threaded explicitly.
-/

/- ------------------------------------------------------------------ -/
/- Shared input types (interface/types/inputs)                         -/
/- ------------------------------------------------------------------ -/

/-- Execution mode passed to `inspect` / `execute`
(`VmExecutionMode` in `interface/types/inputs`). -/
inductive VmExecutionMode : Type
  | OneTx
  | Batch
  | Bootloader
deriving DecidableEq

/-- Per-batch transaction execution policy (`TxExecutionMode`). -/
inductive TxExecutionMode : Type
  | VerifyExecute
  | EstimateFee
  | EthCall
deriving DecidableEq

/-- Bootloader job selector of vm_1_3_2 (`BootloaderJobType`). -/
inductive BootloaderJobType : Type
  | TransactionExecution
  | BlockPostprocessing
deriving DecidableEq

/-- Models `BytecodeCompressionError` from `interface/types/errors`. -/
inductive BytecodeCompressionError : Type
  | BytecodeCompressionFailed
deriving DecidableEq

/- ------------------------------------------------------------------ -/
/- vm_virtual_blocks TracerDispatcher                                  -/
/- (versions/vm_virtual_blocks/tracers/dispatcher.rs)                  -/
/- ------------------------------------------------------------------ -/

/-- The composite tracer dispatcher: an ordered list of member tracer
handles (`pub(crate) tracers: Vec<Rc<RefCell<dyn VmTracer<S, H>>>>`).
Member tracers are dynamically dispatched objects; they are modelled by an
abstract element type `T` together with, per hook, a call function giving
the member's own hook body.  All mutable state a member hook can touch
(its own cell, the `&mut` VM state, the mutable result record, the shared
storage contents) is threaded as an explicit world `W`. -/
structure TracerDispatcher (T : Type) where
  tracers : List T

/-- Models `Default for TracerDispatcher`: `Self { tracers: vec![] }`. -/
def TracerDispatcher.default (T : Type) : TracerDispatcher T := ⟨[]⟩

section DispatcherHooks

variable {T W VLSD ADD BED AED MEM STOR BST SR : Type}

/-- Models `DynTracer::before_decoding` on the dispatcher:
`for tracer in self.tracers.iter() { tracer.borrow_mut().before_decoding(_state, _memory) }`. -/
def TracerDispatcher.before_decoding (call : T → VLSD → MEM → W → W)
    (self : TracerDispatcher T) (state : VLSD) (memory : MEM) (w : W) : W :=
  self.tracers.foldl (fun w tracer => call tracer state memory w) w

/-- Models `DynTracer::after_decoding` on the dispatcher: forwards
`(_state, _data, _memory)` to every member in order. -/
def TracerDispatcher.after_decoding (call : T → VLSD → ADD → MEM → W → W)
    (self : TracerDispatcher T) (state : VLSD) (data : ADD) (memory : MEM) (w : W) : W :=
  self.tracers.foldl (fun w tracer => call tracer state data memory w) w

/-- Models `DynTracer::before_execution` on the dispatcher: forwards
`(_state, _data, _memory, _storage.clone())` to every member in order
(cloning a `StoragePtr` yields the same shared pointer, so every member
receives the identical `storage` value). -/
def TracerDispatcher.before_execution (call : T → VLSD → BED → MEM → STOR → W → W)
    (self : TracerDispatcher T) (state : VLSD) (data : BED) (memory : MEM)
    (storage : STOR) (w : W) : W :=
  self.tracers.foldl (fun w tracer => call tracer state data memory storage w) w

/-- Models `DynTracer::after_execution` on the dispatcher: forwards
`(_state, _data, _memory, _storage.clone())` to every member in order. -/
def TracerDispatcher.after_execution (call : T → VLSD → AED → MEM → STOR → W → W)
    (self : TracerDispatcher T) (state : VLSD) (data : AED) (memory : MEM)
    (storage : STOR) (w : W) : W :=
  self.tracers.foldl (fun w tracer => call tracer state data memory storage w) w

/-- Models `ExecutionEndTracer::should_stop_execution` on the dispatcher:
`let mut result = false; for tracer { result = result | tracer.should_stop_execution() }; result`
(Rust `|` on `bool` is non-short-circuiting or; as a value it agrees with `||`). -/
def TracerDispatcher.should_stop_execution (call : T → Bool)
    (self : TracerDispatcher T) : Bool :=
  self.tracers.foldl (fun result tracer => result || call tracer) false

/-- Models `ExecutionProcessing::initialize_tracer` on the dispatcher: calls each
member once in order with the same `&mut ZkSyncVmState` (the mutable state
lives in the threaded world `W`). -/
def TracerDispatcher.init_tracer (call : T → W → W)
    (self : TracerDispatcher T) (w : W) : W :=
  self.tracers.foldl (fun w tracer => call tracer w) w

/-- Models `ExecutionProcessing::after_cycle` on the dispatcher: calls each member
once in order with the same `&mut ZkSyncVmState` and `&mut BootloaderState`
(both live in the threaded world `W`). -/
def TracerDispatcher.after_cycle (call : T → W → W)
    (self : TracerDispatcher T) (w : W) : W :=
  self.tracers.foldl (fun w tracer => call tracer w) w

/-- Models `ExecutionProcessing::after_vm_execution` on the dispatcher: forwards
`(_bootloader_state, _stop_reason.clone())` to every member in order
(the `&mut ZkSyncVmState` argument lives in the threaded world `W`;
cloning the stop reason passes the identical value). -/
def TracerDispatcher.after_vm_execution (call : T → BST → SR → W → W)
    (self : TracerDispatcher T) (bootloader_state : BST) (stop_reason : SR) (w : W) : W :=
  self.tracers.foldl (fun w tracer => call tracer bootloader_state stop_reason w) w

/-- Models `VmTracer::save_results` on the dispatcher: calls each member once in
order with the same `&mut VmExecutionResultAndLogs` (threaded in `W`). -/
def TracerDispatcher.save_results (call : T → W → W)
    (self : TracerDispatcher T) (w : W) : W :=
  self.tracers.foldl (fun w tracer => call tracer w) w

end DispatcherHooks

/- ------------------------------------------------------------------ -/
/- Unified execution contract (interface/traits/vm.rs)                 -/
/- ------------------------------------------------------------------ -/

/-- The `VmInterface` trait, restricted to the operations the claims need.
`V` is the implementing Vm's state, `D` the associated `TracerDispatcher`
type (with its `Default` value), `Tx` the transaction type, `O` / `OC` the
observation types of `inspect` / `inspect_transaction_with_bytecode_compression`
(result together with the post-state, since the Rust methods take `&mut self`). -/
structure VmInterface (V D Tx O OC : Type) where
  dispatcher_default : D
  inspect : D → VmExecutionMode → V → O
  inspect_transaction_with_bytecode_compression : D → Tx → Bool → V → OC

/-- The trait's provided method
`fn execute(&mut self, execution_mode) { self.inspect(Self::TracerDispatcher::default(), execution_mode) }`. -/
def VmInterface.execute {V D Tx O OC : Type} (I : VmInterface V D Tx O OC)
    (execution_mode : VmExecutionMode) (v : V) : O :=
  I.inspect I.dispatcher_default execution_mode v

/-- The trait's provided method
`fn execute_transaction_with_bytecode_compression(&mut self, tx, with_compression)`,
which forwards to `inspect_transaction_with_bytecode_compression` with the
default dispatcher. -/
def VmInterface.execute_transaction_with_bytecode_compression {V D Tx O OC : Type}
    (I : VmInterface V D Tx O OC) (tx : Tx) (with_compression : Bool) (v : V) : OC :=
  I.inspect_transaction_with_bytecode_compression I.dispatcher_default tx with_compression v

/- ------------------------------------------------------------------ -/
/- vm_1_3_2 adapter (versions/vm_1_3_2/vm_instance.rs)                 -/
/- ------------------------------------------------------------------ -/

/-- Models `SystemEnv`, restricted to the two fields the vm_1_3_2 adapter's
execution paths read (`execution_mode` and
`default_validation_computational_gas_limit`). -/
structure SystemEnv : Type where
  execution_mode : TxExecutionMode
  default_validation_computational_gas_limit : Nat
deriving DecidableEq

/-- A `Transaction`, restricted to the only field the compression protocol
reads: `tx.execute.factory_deps : Option<Vec<Vec<u8>>>`.  `B` is the
bytecode type (`Vec<u8>` in the source). -/
structure Transaction (B : Type) where
  factory_deps : Option (List B)

/-- The native vm_1_3_2 interpreter engine (`VmInstance` and its reachable
storage), an external collaborator of this layer (spec §1: the interpreter
loop and the storage engine are out of scope).  It is kept fully abstract:
`V` is the engine's state, and each field is one engine operation the
adapter invokes.  `is_bytecode_known` is the storage-backed bytecode cache
query reachable through `vm.state.storage.storage.get_ptr()`. -/
structure InnerVm (V B C R H : Type) where
  push_transaction_to_bootloader_memory :
    Transaction B → TxExecutionMode → Option (List C) → V → V
  execute_next_tx : Nat → Bool → V → R × V
  execute_till_block_end : BootloaderJobType → V → R × V
  execute_block_tip : V → R × V
  is_bytecode_known : H → V → Bool

/-- The vm_1_3_2 adapter struct
`pub struct Vm { vm: VmInstance, system_env: SystemEnv, last_tx_compressed_bytecodes: Vec<CompressedBytecodeInfo> }`.
`C` is the `CompressedBytecodeInfo` type. -/
structure Vm132 (V C : Type) where
  vm : V
  system_env : SystemEnv
  last_tx_compressed_bytecodes : List C

/-- Models `VmInterface::new` for the vm_1_3_2 adapter: wraps the freshly
initialized inner engine (built by the external
`init_vm_with_gas_limit`) and sets `last_tx_compressed_bytecodes: vec![]`. -/
def Vm132.new {V C : Type} (inner_vm : V) (system_env : SystemEnv) : Vm132 V C :=
  { vm := inner_vm, system_env := system_env, last_tx_compressed_bytecodes := [] }

/-- Models `VmInterface::push_transaction`: forwards to the engine's
`push_transaction_to_bootloader_memory(&mut self.vm, &tx, mode, None)`. -/
def Vm132.push_transaction {V B C R H : Type} (E : InnerVm V B C R H)
    (tx : Transaction B) (self : Vm132 V C) : Vm132 V C :=
  { self with
      vm := E.push_transaction_to_bootloader_memory tx self.system_env.execution_mode
              none self.vm }

/-- Models `VmInterface::inspect` for vm_1_3_2.  The `_tracer` argument is the
placeholder dispatcher `Vec<Box<dyn Any>>` (elements of an arbitrary type
`A`); it is ignored.  A `panic!` is modelled as `Except.error` carrying the
panic message; no post-state accompanies an error, matching the abort. -/
def Vm132.inspect {A V B C R H : Type} (E : InnerVm V B C R H)
    (_tracer : List A) (execution_mode : VmExecutionMode)
    (self : Vm132 V C) : Except String (R × Vm132 V C) :=
  match execution_mode with
  | VmExecutionMode.OneTx =>
    match self.system_env.execution_mode with
    | TxExecutionMode.VerifyExecute =>
      let p := E.execute_next_tx
        self.system_env.default_validation_computational_gas_limit false self.vm
      Except.ok (p.1, { self with vm := p.2 })
    | TxExecutionMode.EstimateFee =>
      let p := E.execute_till_block_end BootloaderJobType.TransactionExecution self.vm
      Except.ok (p.1, { self with vm := p.2 })
    | TxExecutionMode.EthCall =>
      let p := E.execute_till_block_end BootloaderJobType.TransactionExecution self.vm
      Except.ok (p.1, { self with vm := p.2 })
  | VmExecutionMode.Batch =>
    Except.error "Not supported for vm before vm with virtual blocks, use `finish_batch` instead"
  | VmExecutionMode.Bootloader =>
    let p := E.execute_block_tip self.vm
    Except.ok (p.1, { self with vm := p.2 })

/-- Models `VmInterface::execute` as inherited by the vm_1_3_2 adapter: the trait's
provided method with the default dispatcher, which for
`Vec<Box<dyn Any>>` is the empty vector. -/
def Vm132.execute {V B C R H : Type} (E : InnerVm V B C R H)
    (execution_mode : VmExecutionMode) (self : Vm132 V C) :
    Except String (R × Vm132 V C) :=
  Vm132.inspect E ([] : List Unit) execution_mode self

/-- Models `VmInterface::get_bootloader_memory` for vm_1_3_2: the body is
`vec![]`.  `BootloaderMemory` is `Vec<(usize, U256)>`, modelled as
`List (Nat × Nat)`. -/
def Vm132.get_bootloader_memory {V C : Type} (_self : Vm132 V C) : List (Nat × Nat) :=
  []

/-- Models `VmInterface::get_last_tx_compressed_bytecodes`:
`self.last_tx_compressed_bytecodes.clone()`. -/
def Vm132.get_last_tx_compressed_bytecodes {V C : Type} (self : Vm132 V C) : List C :=
  self.last_tx_compressed_bytecodes

/-- Models `VmInterface::start_new_l2_block` for vm_1_3_2: a true no-op
("Do nothing, because vm 1.3.2 doesn't support L2 blocks"). -/
def Vm132.start_new_l2_block {L V C : Type} (_l2_block_env : L) (self : Vm132 V C) :
    Vm132 V C :=
  self

/-- Models `VmInterface::get_current_execution_state` for vm_1_3_2: the body is a
single unconditional `panic!`, modelled as `Except.error` with the panic
message; `CES` is the (never produced) `CurrentExecutionState` type. -/
def Vm132.get_current_execution_state (CES : Type) {V C : Type} (_self : Vm132 V C) :
    Except String CES :=
  Except.error "Not supported for vm before vm with virtual blocks, use `finish_batch` instead"

/- The bytecode dependency compressor: the `deps.iter().filter_map(...)`
closure inside `inspect_transaction_with_bytecode_compression`, with its
side effects on `deps_hashes` (a `HashSet`, modelled by its membership
list), `bytecode_hashes` (the pending-hash accumulator) and the collected
compressed records made explicit as one accumulator state. -/

/-- Accumulator of the dependency-filtering pass: `deps_hashes` is the
hash set of all hashes seen so far in this list (membership is all that
matters; insertion is modelled by consing), `bytecode_hashes` the pending
hashes pushed so far, `compressed` the successfully compressed records. -/
structure CompressState (H C : Type) where
  deps_hashes : List H
  bytecode_hashes : List H
  compressed : List C
deriving DecidableEq

/-- The empty accumulator (`HashSet::with_capacity`, `vec![]`, empty
collection). -/
def CompressState.init {H C : Type} : CompressState H C := ⟨[], [], []⟩

/-- One iteration of the `filter_map` closure over dependency `bytecode`:
`let bytecode_hash = hash_bytecode(bytecode); let is_known = !deps_hashes.insert(bytecode_hash) || storage.is_bytecode_known(&bytecode_hash); if is_known { None } else { bytecode_hashes.push(bytecode_hash); CompressedBytecodeInfo::from_original(bytecode.clone()).ok() }`.
The short-circuiting `||` is unfolded into nested ifs: the insert always
runs (so the hash enters `deps_hashes` even when the cache knows it), and
the cache is only queried for hashes not already seen in this list.  When
compression itself fails (`from_original(..).ok() == None`) the hash has
already been pushed as pending but no record is collected. -/
def compressStep {B C H : Type} [DecidableEq H] (hash_bytecode : B → H)
    (from_original : B → Option C) (is_bytecode_known : H → Bool)
    (st : CompressState H C) (bytecode : B) : CompressState H C :=
  let bytecode_hash := hash_bytecode bytecode
  if bytecode_hash ∈ st.deps_hashes then
    st
  else
    let deps_hashes := bytecode_hash :: st.deps_hashes
    if is_bytecode_known bytecode_hash then
      { st with deps_hashes := deps_hashes }
    else
      { deps_hashes := deps_hashes,
        bytecode_hashes := st.bytecode_hashes ++ [bytecode_hash],
        compressed := st.compressed ++ (from_original bytecode).toList }

/-- The whole `filter_map` pass, driven by `collect()`:
`filtered_deps` folds `compressStep` over the dependency list. -/
def filtered_deps {B C H : Type} [DecidableEq H] (hash_bytecode : B → H)
    (from_original : B → Option C) (is_bytecode_known : H → Bool) :
    List B → CompressState H C → CompressState H C
  | [], st => st
  | bytecode :: deps, st =>
    filtered_deps hash_bytecode from_original is_bytecode_known deps
      (compressStep hash_bytecode from_original is_bytecode_known st bytecode)

/-- Models `VmInterface::inspect_transaction_with_bytecode_compression` for
vm_1_3_2.  `hash_bytecode` and `from_original` are the external
`zksync_utils` hashing and compression functions.  Follows the source
line by line: clear `last_tx_compressed_bytecodes`; if compression is
requested, run the dedup/compress pass against the pre-execution storage
cache, store the records, and push the transaction with them (otherwise
push with `Some(vec![])` and no pending hashes); execute the next
transaction; fail with `BytecodeCompressionFailed` when any pending hash
is still unknown to the (post-execution) storage cache, else return the
execution result. -/
def Vm132.inspect_transaction_with_bytecode_compression {A V B C R H : Type}
    [DecidableEq H] (E : InnerVm V B C R H) (hash_bytecode : B → H)
    (from_original : B → Option C) (_tracer : List A) (tx : Transaction B)
    (with_compression : Bool) (self : Vm132 V C) :
    Except BytecodeCompressionError R × Vm132 V C :=
  let self1 : Vm132 V C := { self with last_tx_compressed_bytecodes := [] }
  let pushed : List H × Vm132 V C :=
    if with_compression then
      let deps := tx.factory_deps.getD []
      let st := filtered_deps hash_bytecode from_original
        (fun h => E.is_bytecode_known h self1.vm) deps CompressState.init
      ( st.bytecode_hashes,
        { self1 with
            last_tx_compressed_bytecodes := st.compressed,
            vm := E.push_transaction_to_bootloader_memory tx
                    self1.system_env.execution_mode (some st.compressed) self1.vm } )
    else
      ( [],
        { self1 with
            vm := E.push_transaction_to_bootloader_memory tx
                    self1.system_env.execution_mode (some []) self1.vm } )
  let p := E.execute_next_tx
    pushed.2.system_env.default_validation_computational_gas_limit false pushed.2.vm
  let self2 : Vm132 V C := { pushed.2 with vm := p.2 }
  if pushed.1.any (fun h => ! E.is_bytecode_known h self2.vm) then
    (Except.error BytecodeCompressionError.BytecodeCompressionFailed, self2)
  else
    (Except.ok p.1, self2)

/-- Models `VmInterface::execute_transaction_with_bytecode_compression` as
inherited by the vm_1_3_2 adapter: the provided trait method with the
default (empty) dispatcher. -/
def Vm132.execute_transaction_with_bytecode_compression {V B C R H : Type}
    [DecidableEq H] (E : InnerVm V B C R H) (hash_bytecode : B → H)
    (from_original : B → Option C) (tx : Transaction B) (with_compression : Bool)
    (self : Vm132 V C) : Except BytecodeCompressionError R × Vm132 V C :=
  Vm132.inspect_transaction_with_bytecode_compression E hash_bytecode from_original
    ([] : List Unit) tx with_compression self

/- ------------------------------------------------------------------ -/
/- Specification-side characterizations of the compressor              -/
/- ------------------------------------------------------------------ -/

/-- First-occurrence unknown dependencies: the sublist of `deps` keeping
each bytecode whose hash is new (not in `seen`, which threads every new
hash whether cached or not, matching the unconditional `HashSet::insert`)
and not recognized by the cache.  These are exactly the bytecodes the
compressor attempts to compress and marks pending. -/
def firstOccUnknown {B H : Type} [DecidableEq H] (hash_bytecode : B → H)
    (is_bytecode_known : H → Bool) : List B → List H → List B
  | [], _ => []
  | b :: bs, seen =>
    if hash_bytecode b ∈ seen then
      firstOccUnknown hash_bytecode is_bytecode_known bs seen
    else if is_bytecode_known (hash_bytecode b) then
      firstOccUnknown hash_bytecode is_bytecode_known bs (hash_bytecode b :: seen)
    else
      b :: firstOccUnknown hash_bytecode is_bytecode_known bs (hash_bytecode b :: seen)

/-- The distinct hashes of a dependency list in first-occurrence order
(ignoring the cache). -/
def firstOccHashes {B H : Type} [DecidableEq H] (hash_bytecode : B → H) :
    List B → List H → List H
  | [], _ => []
  | b :: bs, seen =>
    if hash_bytecode b ∈ seen then
      firstOccHashes hash_bytecode bs seen
    else
      hash_bytecode b :: firstOccHashes hash_bytecode bs (hash_bytecode b :: seen)

/-- The seen-hash set after processing a dependency list. -/
def specSeen {B H : Type} [DecidableEq H] (hash_bytecode : B → H) :
    List B → List H → List H
  | [], seen => seen
  | b :: bs, seen =>
    specSeen hash_bytecode bs
      (if hash_bytecode b ∈ seen then seen else hash_bytecode b :: seen)

/- ------------------------------------------------------------------ -/
/- Concrete demonstration engines (for counterexamples and witnesses)  -/
/- ------------------------------------------------------------------ -/

/-- A minimal concrete interpreter-engine state for exercising the
vm_1_3_2 adapter on closed inputs: a FIFO of the factory-dependency hash
lists of pushed transactions, the storage cache's known-hash set, and a
count of executed transactions.  Bytecodes, hashes, compressed records and
execution results are all `Nat` (with `hash_bytecode := id`). -/
structure DemoInner : Type where
  pending : List (List Nat)
  known : List Nat
  executed : Nat
deriving DecidableEq

/-- A well-behaved concrete engine: executing a transaction registers all
its factory dependencies in the storage cache (the behavior the
post-check expects of the real interpreter). -/
def demoEngine : InnerVm DemoInner Nat Nat Nat Nat where
  push_transaction_to_bootloader_memory := fun tx _mode _bytecodes v =>
    { v with pending := v.pending ++ [tx.factory_deps.getD []] }
  execute_next_tx := fun _gas _flag v =>
    match v.pending with
    | [] => (0, { v with executed := v.executed + 1 })
    | d :: rest =>
      (0, { pending := rest, known := v.known ++ d, executed := v.executed + 1 })
  execute_till_block_end := fun _job v => (0, v)
  execute_block_tip := fun v => (0, v)
  is_bytecode_known := fun h v => v.known.contains h

/-- A misbehaving concrete engine: executing a transaction never registers
its factory dependencies, so every pending hash fails the post-check. -/
def demoEngineNoRegister : InnerVm DemoInner Nat Nat Nat Nat where
  push_transaction_to_bootloader_memory := fun tx _mode _bytecodes v =>
    { v with pending := v.pending ++ [tx.factory_deps.getD []] }
  execute_next_tx := fun _gas _flag v =>
    (0, { v with pending := v.pending.drop 1, executed := v.executed + 1 })
  execute_till_block_end := fun _job v => (0, v)
  execute_block_tip := fun v => (0, v)
  is_bytecode_known := fun h v => v.known.contains h

/- ------------------------------------------------------------------ -/
/- Helper lemmas                                                       -/
/- ------------------------------------------------------------------ -/

/-- Folding an append-one-entry logger over a list appends one entry per
element, in list order. -/
theorem foldl_append_map {T A : Type} (f : T → A) (ts : List T) :
    ∀ w : List A, ts.foldl (fun w t => w ++ [f t]) w = w ++ ts.map f := by
  induction ts with
  | nil => intro w; simp
  | cons t ts ih => intro w; simp [ih, List.append_assoc]

/-- Folding Boolean or over a list is `any`. -/
theorem foldl_or_any {T : Type} (stop : T → Bool) (ts : List T) :
    ∀ b : Bool, ts.foldl (fun r t => r || stop t) b = (b || ts.any stop) := by
  induction ts with
  | nil => intro b; simp
  | cons t ts ih => intro b; simp [ih, Bool.or_assoc]

/-- Exact characterization of the dependency-filtering pass: the seen set
evolves by `specSeen`, and the pending hashes and collected records are
the appended contributions of the first-occurrence unknown dependencies. -/
theorem filtered_deps_characterization {B C H : Type} [DecidableEq H]
    (hash_bytecode : B → H) (from_original : B → Option C)
    (is_bytecode_known : H → Bool) (deps : List B) :
    ∀ st : CompressState H C,
      filtered_deps hash_bytecode from_original is_bytecode_known deps st =
        { deps_hashes := specSeen hash_bytecode deps st.deps_hashes,
          bytecode_hashes := st.bytecode_hashes ++
            (firstOccUnknown hash_bytecode is_bytecode_known deps st.deps_hashes).map
              hash_bytecode,
          compressed := st.compressed ++
            (firstOccUnknown hash_bytecode is_bytecode_known deps
              st.deps_hashes).filterMap from_original } := by
  induction deps with
  | nil => intro st; simp [filtered_deps, specSeen, firstOccUnknown]
  | cons b bs ih =>
    intro st
    rw [filtered_deps, ih]
    by_cases hmem : hash_bytecode b ∈ st.deps_hashes
    · simp [compressStep, specSeen, firstOccUnknown, hmem]
    · by_cases hk : is_bytecode_known (hash_bytecode b) = true
      · simp [compressStep, specSeen, firstOccUnknown, hmem, hk]
      · simp only [compressStep, specSeen, firstOccUnknown, hmem, hk, if_false,
          if_true, ite_false, ite_true, List.filterMap_cons, List.map_cons,
          List.append_assoc, List.singleton_append, Option.toList]
        cases hfo : from_original b <;> simp [List.filterMap_cons, hfo]

/-- The pending bytecodes' hashes are exactly the distinct hashes of the
list, in first-occurrence order, filtered to those the cache does not
recognize. -/
theorem firstOccUnknown_map_hash {B H : Type} [DecidableEq H]
    (hash_bytecode : B → H) (is_bytecode_known : H → Bool) (deps : List B) :
    ∀ seen : List H,
      (firstOccUnknown hash_bytecode is_bytecode_known deps seen).map hash_bytecode =
        (firstOccHashes hash_bytecode deps seen).filter
          (fun h => ! is_bytecode_known h) := by
  induction deps with
  | nil => intro seen; simp [firstOccUnknown, firstOccHashes]
  | cons b bs ih =>
    intro seen
    by_cases hmem : hash_bytecode b ∈ seen
    · simp [firstOccUnknown, firstOccHashes, hmem, ih]
    · by_cases hk : is_bytecode_known (hash_bytecode b) = true
      · simp [firstOccUnknown, firstOccHashes, hmem, hk, ih, List.filter_cons]
      · simp [firstOccUnknown, firstOccHashes, hmem, hk, ih, List.filter_cons]

/-- The distinct-hash list avoids the seen set and has no duplicates. -/
theorem firstOccHashes_nodup {B H : Type} [DecidableEq H]
    (hash_bytecode : B → H) (deps : List B) :
    ∀ seen : List H,
      (∀ h ∈ firstOccHashes hash_bytecode deps seen, h ∉ seen) ∧
        (firstOccHashes hash_bytecode deps seen).Nodup := by
  induction deps with
  | nil => intro seen; simp [firstOccHashes]
  | cons b bs ih =>
    intro seen
    by_cases hmem : hash_bytecode b ∈ seen
    · simpa [firstOccHashes, hmem] using ih seen
    · have h2 := ih (hash_bytecode b :: seen)
      constructor
      · intro h hh
        simp only [firstOccHashes, hmem, if_false, List.mem_cons] at hh
        rcases hh with rfl | hh
        · exact hmem
        · intro hs
          exact h2.1 h hh (List.mem_cons_of_mem _ hs)
      · simp only [firstOccHashes, hmem, if_false]
        refine List.Nodup.cons ?_ h2.2
        intro hin
        exact h2.1 _ hin (List.mem_cons_self _ _)

/- ------------------------------------------------------------------ -/
/- Claim theorems                                                      -/
/- ------------------------------------------------------------------ -/

/-- Claim C1: for every execution mode and every engine version,
`execute(mode)` is exactly `inspect(default_dispatcher, mode)` — same
result and same post-state — and likewise
`execute_transaction_with_bytecode_compression` is
`inspect_transaction_with_bytecode_compression` with the default
dispatcher.  The first two conjuncts state this for an arbitrary
implementer of the `VmInterface` contract (the provided trait methods are
not overridden by any version); the last two instantiate it for the
vm_1_3_2 adapter, whose default dispatcher is the empty vector. -/
theorem execute_equals_inspect_with_default_dispatcher
    {V D Tx O OC V2 B C R H : Type} [DecidableEq H]
    (I : VmInterface V D Tx O OC) (execution_mode : VmExecutionMode) (v : V)
    (tx : Tx) (with_compression : Bool)
    (E : InnerVm V2 B C R H) (hb : B → H) (fo : B → Option C)
    (tx2 : Transaction B) (vm : Vm132 V2 C) :
    I.execute execution_mode v = I.inspect I.dispatcher_default execution_mode v
    ∧ I.execute_transaction_with_bytecode_compression tx with_compression v
        = I.inspect_transaction_with_bytecode_compression I.dispatcher_default tx
            with_compression v
    ∧ Vm132.execute E execution_mode vm
        = Vm132.inspect E ([] : List Unit) execution_mode vm
    ∧ Vm132.execute_transaction_with_bytecode_compression E hb fo tx2
          with_compression vm
        = Vm132.inspect_transaction_with_bytecode_compression E hb fo
            ([] : List Unit) tx2 with_compression vm :=
  ⟨rfl, rfl, rfl, rfl⟩

/-- Claim C2: every dispatcher hook visits every member tracer exactly
once, in registration (list) order, forwarding the identical arguments —
no call is reordered, batched or dropped.  Each conjunct instruments the
member hook with a recording body and shows the resulting call log is the
prior log extended by exactly one entry per member, in list order, each
entry carrying precisely the arguments the dispatcher received (for the
hooks whose only arguments are the threaded `&mut` state, the entry is
the member itself). -/
theorem dispatcher_forwards_every_hook_in_order
    (T VLSD ADD BED AED MEM STOR BST SR : Type) (ts : List T)
    (state : VLSD) (dd : ADD) (bd : BED) (ad : AED) (memory : MEM) (storage : STOR)
    (bootloader_state : BST) (stop_reason : SR)
    (w1 : List (T × VLSD × MEM)) (w2 : List (T × VLSD × ADD × MEM))
    (w3 : List (T × VLSD × BED × MEM × STOR))
    (w4 : List (T × VLSD × AED × MEM × STOR))
    (w5 w6 w8 : List T) (w7 : List (T × BST × SR)) :
    TracerDispatcher.before_decoding (fun t s m w => w ++ [(t, s, m)]) ⟨ts⟩
        state memory w1
      = w1 ++ ts.map (fun t => (t, state, memory))
    ∧ TracerDispatcher.after_decoding (fun t s d m w => w ++ [(t, s, d, m)]) ⟨ts⟩
        state dd memory w2
      = w2 ++ ts.map (fun t => (t, state, dd, memory))
    ∧ TracerDispatcher.before_execution (fun t s d m stor w => w ++ [(t, s, d, m, stor)])
        ⟨ts⟩ state bd memory storage w3
      = w3 ++ ts.map (fun t => (t, state, bd, memory, storage))
    ∧ TracerDispatcher.after_execution (fun t s d m stor w => w ++ [(t, s, d, m, stor)])
        ⟨ts⟩ state ad memory storage w4
      = w4 ++ ts.map (fun t => (t, state, ad, memory, storage))
    ∧ TracerDispatcher.init_tracer (fun t w => w ++ [t]) ⟨ts⟩ w5 = w5 ++ ts
    ∧ TracerDispatcher.after_cycle (fun t w => w ++ [t]) ⟨ts⟩ w6 = w6 ++ ts
    ∧ TracerDispatcher.after_vm_execution (fun t b r w => w ++ [(t, b, r)]) ⟨ts⟩
        bootloader_state stop_reason w7
      = w7 ++ ts.map (fun t => (t, bootloader_state, stop_reason))
    ∧ TracerDispatcher.save_results (fun t w => w ++ [t]) ⟨ts⟩ w8 = w8 ++ ts := by
  refine ⟨?_, ?_, ?_, ?_, ?_, ?_, ?_, ?_⟩ <;>
    simp only [TracerDispatcher.before_decoding, TracerDispatcher.after_decoding,
      TracerDispatcher.before_execution, TracerDispatcher.after_execution,
      TracerDispatcher.init_tracer, TracerDispatcher.after_cycle,
      TracerDispatcher.after_vm_execution, TracerDispatcher.save_results,
      foldl_append_map, List.map_id]
  · simp
  · simp
  · simp

/-- Claim C3: the dispatcher's `should_stop_execution` is the logical OR
of the members' individual answers (`List.any`), hence `true` as soon as
any one member answers `true`, and `false` on the default (empty)
dispatcher. -/
theorem dispatcher_should_stop_is_or (T : Type) (call : T → Bool) (ts : List T) :
    TracerDispatcher.should_stop_execution call ⟨ts⟩ = ts.any call
    ∧ TracerDispatcher.should_stop_execution call (TracerDispatcher.default T) = false := by
  constructor
  · simp [TracerDispatcher.should_stop_execution, foldl_or_any]
  · rfl

/-- Claim C4: on vm_1_3_2, `inspect` with mode `Batch` — and hence
`execute(Batch)` — fails with the unconditional panic
"Not supported for vm before vm with virtual blocks", for every engine,
every dispatcher value and every Vm state.  The error is produced by the
`Batch` match arm before any engine operation is invoked: the result is
independent of every field of `E` and of the Vm state, and no post-state
accompanies the error. -/
theorem vm_1_3_2_batch_mode_fails {A V B C R H : Type}
    (E : InnerVm V B C R H) (tracer : List A) (vm : Vm132 V C) :
    Vm132.inspect E tracer VmExecutionMode.Batch vm
      = Except.error
          "Not supported for vm before vm with virtual blocks, use `finish_batch` instead"
    ∧ Vm132.execute E VmExecutionMode.Batch vm
      = Except.error
          "Not supported for vm before vm with virtual blocks, use `finish_batch` instead" :=
  ⟨rfl, rfl⟩

/-- Claim C9: on vm_1_3_2, `get_current_execution_state` panics
unconditionally — in particular before `finish_batch` — for every Vm
state; it never returns a `CurrentExecutionState` (silently or
otherwise), since the error constructor carries none. -/
theorem vm_1_3_2_get_current_execution_state_fails (CES : Type) {V C : Type}
    (vm : Vm132 V C) :
    Vm132.get_current_execution_state CES vm
      = Except.error
          "Not supported for vm before vm with virtual blocks, use `finish_batch` instead" :=
  rfl

/-- Claim C8 counterexample: on vm_1_3_2, `get_bootloader_memory` is the
constant `vec![]`.  Concretely, after pushing a transaction with factory
dependency `5` onto a fresh Vm the returned queue is still empty and
identical to the pre-push queue — it does not reflect the pushed
transaction, refuting the claim that the returned queue represents the
pending/serialized transactions. -/
theorem vm_1_3_2_bootloader_memory_ignores_push :
    Vm132.get_bootloader_memory
        (Vm132.push_transaction demoEngine ⟨some [5]⟩
          (Vm132.new ⟨[], [], 0⟩ ⟨TxExecutionMode.VerifyExecute, 0⟩ : Vm132 DemoInner Nat))
      = ([] : List (Nat × Nat))
    ∧ Vm132.get_bootloader_memory
        (Vm132.push_transaction demoEngine ⟨some [5]⟩
          (Vm132.new ⟨[], [], 0⟩ ⟨TxExecutionMode.VerifyExecute, 0⟩ : Vm132 DemoInner Nat))
      = Vm132.get_bootloader_memory
          (Vm132.new ⟨[], [], 0⟩ ⟨TxExecutionMode.VerifyExecute, 0⟩ : Vm132 DemoInner Nat) :=
  ⟨rfl, rfl⟩

/-- Claim C8 amended: on vm_1_3_2, `get_bootloader_memory` always returns
the empty queue, for every Vm state — in particular it is unchanged by
`push_transaction` — and calling it never mutates the Vm (it is a pure
read in the model, returning no post-state). -/
theorem vm_1_3_2_bootloader_memory_always_empty {V B C R H : Type}
    (E : InnerVm V B C R H) (tx : Transaction B) (vm : Vm132 V C) :
    Vm132.get_bootloader_memory vm = []
    ∧ Vm132.get_bootloader_memory (Vm132.push_transaction E tx vm)
        = Vm132.get_bootloader_memory vm :=
  ⟨rfl, rfl⟩

/-- Claim C5: with compression requested, the dependency pass compresses
only the first occurrence of each content hash, hashes the storage cache
already recognizes are never marked pending and never yield records, and
the number of compression attempts (one `from_original` call per pending
hash push) equals the number of distinct hashes in the list unknown to
the cache.  Conjuncts: the pending hashes and records are exactly those
of the first-occurrence unknown dependencies; the pending hashes are the
distinct hashes filtered to the unknown ones, are duplicate-free, all
unknown, and count the distinct unknown hashes; and the adapter stores
exactly the pass's records. -/
theorem vm_1_3_2_compression_dedup {A V B C R H : Type} [DecidableEq H]
    (E : InnerVm V B C R H) (hb : B → H) (fo : B → Option C)
    (tracer : List A) (tx : Transaction B) (vm : Vm132 V C) :
    let known := fun h => E.is_bytecode_known h vm.vm
    let deps := tx.factory_deps.getD []
    let st := filtered_deps hb fo known deps CompressState.init
    st.bytecode_hashes = (firstOccUnknown hb known deps []).map hb
    ∧ st.compressed = (firstOccUnknown hb known deps []).filterMap fo
    ∧ st.bytecode_hashes = (firstOccHashes hb deps []).filter (fun h => ! known h)
    ∧ st.bytecode_hashes.Nodup
    ∧ st.bytecode_hashes.all (fun h => ! known h) = true
    ∧ st.bytecode_hashes.length
        = ((firstOccHashes hb deps []).filter (fun h => ! known h)).length
    ∧ (Vm132.inspect_transaction_with_bytecode_compression E hb fo tracer tx true
          vm).2.last_tx_compressed_bytecodes
        = st.compressed := by
  intro known deps st
  have hchar := filtered_deps_characterization hb fo known deps CompressState.init
  have h1 : st.bytecode_hashes = (firstOccUnknown hb known deps []).map hb := by
    rw [show st = filtered_deps hb fo known deps CompressState.init from rfl, hchar]
    simp [CompressState.init]
  have h2 : st.compressed = (firstOccUnknown hb known deps []).filterMap fo := by
    rw [show st = filtered_deps hb fo known deps CompressState.init from rfl, hchar]
    simp [CompressState.init]
  have h3 : st.bytecode_hashes
      = (firstOccHashes hb deps []).filter (fun h => ! known h) := by
    rw [h1, firstOccUnknown_map_hash]
  have h4 : st.bytecode_hashes.Nodup := by
    rw [h3]
    exact (firstOccHashes_nodup hb deps []).2.filter _
  have h5 : st.bytecode_hashes.all (fun h => ! known h) = true := by
    rw [h3]
    refine List.all_eq_true.2 ?_
    intro h hmem
    exact (List.mem_filter.1 hmem).2
  have h7 : (Vm132.inspect_transaction_with_bytecode_compression E hb fo tracer tx true
      vm).2.last_tx_compressed_bytecodes = st.compressed := by
    show (Vm132.inspect_transaction_with_bytecode_compression E hb fo tracer tx true
      vm).2.last_tx_compressed_bytecodes = st.compressed
    simp only [Vm132.inspect_transaction_with_bytecode_compression, if_true, ite_true]
    rw [apply_ite Prod.snd]
    simp [ite_self, st, known, deps]
  exact ⟨h1, h2, h3, h4, h5, by rw [h3], h7⟩

/-- Claim C6: with compression requested,
`inspect_transaction_with_bytecode_compression` returns
`BytecodeCompressionFailed` exactly when some pending hash is still not
recognized by the storage cache after execution, and otherwise returns
the execution result (the error carries no result, so no partial success
is possible); without compression it always returns the execution result
and stores no records (the post-check ranges over an empty pending
list). -/
theorem vm_1_3_2_compression_post_check {A V B C R H : Type} [DecidableEq H]
    (E : InnerVm V B C R H) (hb : B → H) (fo : B → Option C)
    (tracer : List A) (tx : Transaction B) (vm : Vm132 V C) :
    let known := fun h => E.is_bytecode_known h vm.vm
    let deps := tx.factory_deps.getD []
    let st := filtered_deps hb fo known deps CompressState.init
    let pushedVm := E.push_transaction_to_bootloader_memory tx
      vm.system_env.execution_mode (some st.compressed) vm.vm
    let p := E.execute_next_tx
      vm.system_env.default_validation_computational_gas_limit false pushedVm
    let out := Vm132.inspect_transaction_with_bytecode_compression E hb fo tracer
      tx true vm
    let outNo := Vm132.inspect_transaction_with_bytecode_compression E hb fo tracer
      tx false vm
    out.1 = (if st.bytecode_hashes.any (fun h => ! E.is_bytecode_known h p.2) then
               Except.error BytecodeCompressionError.BytecodeCompressionFailed
             else Except.ok p.1)
    ∧ (out.1 = Except.error BytecodeCompressionError.BytecodeCompressionFailed
        ↔ st.bytecode_hashes.any (fun h => ! E.is_bytecode_known h p.2) = true)
    ∧ outNo.1 = Except.ok (E.execute_next_tx
        vm.system_env.default_validation_computational_gas_limit false
        (E.push_transaction_to_bootloader_memory tx vm.system_env.execution_mode
          (some []) vm.vm)).1
    ∧ outNo.2.last_tx_compressed_bytecodes = [] := by
  intro known deps st pushedVm p out outNo
  have h1 : out.1 = (if st.bytecode_hashes.any (fun h => ! E.is_bytecode_known h p.2)
      then Except.error BytecodeCompressionError.BytecodeCompressionFailed
      else Except.ok p.1) := by
    simp only [out, Vm132.inspect_transaction_with_bytecode_compression, ite_true]
    rw [apply_ite Prod.fst]
  refine ⟨h1, ?_, rfl, rfl⟩
  rw [h1]
  by_cases hc : st.bytecode_hashes.any (fun h => ! E.is_bytecode_known h p.2) = true
  · simp [hc]
  · simp [hc]

/-- Claim C7 counterexample: run a compressed transaction whose dependency
`5` is unknown (producing and storing record `5`), then push a second
transaction and execute it through plain `inspect(OneTx)`.  The second
execution (the Vm's executed-count reaches 2) produces no compression
records, yet `get_last_tx_compressed_bytecodes` still returns `[5]` — the
records of the first transaction, not those of the most recently executed
one — refuting the claim for a sequence that executes via plain
`inspect`. -/
theorem vm_1_3_2_last_compressed_bytecodes_stale_after_plain_inspect :
    let v0 : Vm132 DemoInner Nat :=
      Vm132.new ⟨[], [], 0⟩ ⟨TxExecutionMode.VerifyExecute, 0⟩
    let step1 := Vm132.inspect_transaction_with_bytecode_compression demoEngine
      (fun b => b) (fun b => some b) ([] : List Unit) ⟨some [5]⟩ true v0
    let v2 := Vm132.push_transaction demoEngine ⟨none⟩ step1.2
    let v3 := match Vm132.inspect demoEngine ([] : List Unit) VmExecutionMode.OneTx v2 with
      | Except.ok p => p.2
      | Except.error _ => v2
    step1.1 = Except.ok 0
    ∧ v3.vm.executed = 2
    ∧ Vm132.get_last_tx_compressed_bytecodes v3 = [5]
    ∧ Vm132.get_last_tx_compressed_bytecodes v3 ≠ [] := by
  exact ⟨rfl, rfl, rfl, List.cons_ne_nil 5 []⟩

/-- Claim C7 amended: `get_last_tx_compressed_bytecodes` returns the
records stored by the most recent
`inspect_transaction_with_bytecode_compression` call (the pass's records
when compression was requested, `[]` otherwise), and `[]` on a fresh Vm;
executions through plain `inspect`, as well as `push_transaction` and
`start_new_l2_block`, leave the stored records unchanged (so after a
plain-`inspect` execution the value is stale rather than that
transaction's records). -/
theorem vm_1_3_2_last_compressed_bytecodes_characterization
    {A V B C R H : Type} [DecidableEq H] (E : InnerVm V B C R H)
    (hb : B → H) (fo : B → Option C) (tracer : List A) (tx : Transaction B)
    (with_compression : Bool) (execution_mode : VmExecutionMode) (inner : V)
    (env : SystemEnv) (l2_block_env : Unit) (vm : Vm132 V C) :
    Vm132.get_last_tx_compressed_bytecodes (Vm132.new inner env : Vm132 V C) = []
    ∧ Vm132.get_last_tx_compressed_bytecodes
        (Vm132.inspect_transaction_with_bytecode_compression E hb fo tracer tx
          with_compression vm).2
      = (if with_compression then
           (filtered_deps hb fo (fun h => E.is_bytecode_known h vm.vm)
             (tx.factory_deps.getD []) CompressState.init).compressed
         else [])
    ∧ Vm132.get_last_tx_compressed_bytecodes (Vm132.push_transaction E tx vm)
        = Vm132.get_last_tx_compressed_bytecodes vm
    ∧ Vm132.get_last_tx_compressed_bytecodes (Vm132.start_new_l2_block l2_block_env vm)
        = Vm132.get_last_tx_compressed_bytecodes vm
    ∧ (match Vm132.inspect E tracer execution_mode vm with
        | Except.ok p => Vm132.get_last_tx_compressed_bytecodes p.2
        | Except.error _ => Vm132.get_last_tx_compressed_bytecodes vm)
      = Vm132.get_last_tx_compressed_bytecodes vm := by
  refine ⟨rfl, ?_, rfl, rfl, ?_⟩
  · cases with_compression
    · simp only [Vm132.inspect_transaction_with_bytecode_compression, if_false,
        ite_false, Bool.false_eq_true]
      rw [apply_ite Prod.snd]
      simp [Vm132.get_last_tx_compressed_bytecodes]
    · simp only [Vm132.inspect_transaction_with_bytecode_compression, if_true, ite_true]
      rw [apply_ite Prod.snd]
      simp [Vm132.get_last_tx_compressed_bytecodes]
  · cases execution_mode <;>
      cases hsem : vm.system_env.execution_mode <;>
        simp [Vm132.inspect, Vm132.get_last_tx_compressed_bytecodes, hsem]

/-- Claim C10: when `inspect_transaction_with_bytecode_compression`
(compression requested) fails with `BytecodeCompressionFailed`, the
operation was not atomic: the post-state is exactly the state after the
transaction was pushed and executed on the engine, and the failed
transaction's compression records remain stored and are what a subsequent
`get_last_tx_compressed_bytecodes` returns. -/
theorem vm_1_3_2_compression_failure_not_atomic {A V B C R H : Type} [DecidableEq H]
    (E : InnerVm V B C R H) (hb : B → H) (fo : B → Option C)
    (tracer : List A) (tx : Transaction B) (vm : Vm132 V C)
    (_hfail : (Vm132.inspect_transaction_with_bytecode_compression E hb fo tracer tx
        true vm).1
      = Except.error BytecodeCompressionError.BytecodeCompressionFailed) :
    (Vm132.inspect_transaction_with_bytecode_compression E hb fo tracer tx true vm).2
      = { vm := (E.execute_next_tx
              vm.system_env.default_validation_computational_gas_limit false
              (E.push_transaction_to_bootloader_memory tx
                vm.system_env.execution_mode
                (some (filtered_deps hb fo (fun h => E.is_bytecode_known h vm.vm)
                  (tx.factory_deps.getD []) CompressState.init).compressed) vm.vm)).2,
          system_env := vm.system_env,
          last_tx_compressed_bytecodes :=
            (filtered_deps hb fo (fun h => E.is_bytecode_known h vm.vm)
              (tx.factory_deps.getD []) CompressState.init).compressed }
    ∧ Vm132.get_last_tx_compressed_bytecodes
        (Vm132.inspect_transaction_with_bytecode_compression E hb fo tracer tx true
          vm).2
      = (filtered_deps hb fo (fun h => E.is_bytecode_known h vm.vm)
          (tx.factory_deps.getD []) CompressState.init).compressed := by
  have key : (Vm132.inspect_transaction_with_bytecode_compression E hb fo tracer tx
      true vm).2
      = { vm := (E.execute_next_tx
              vm.system_env.default_validation_computational_gas_limit false
              (E.push_transaction_to_bootloader_memory tx
                vm.system_env.execution_mode
                (some (filtered_deps hb fo (fun h => E.is_bytecode_known h vm.vm)
                  (tx.factory_deps.getD []) CompressState.init).compressed) vm.vm)).2,
          system_env := vm.system_env,
          last_tx_compressed_bytecodes :=
            (filtered_deps hb fo (fun h => E.is_bytecode_known h vm.vm)
              (tx.factory_deps.getD []) CompressState.init).compressed } := by
    simp only [Vm132.inspect_transaction_with_bytecode_compression, if_true, ite_true]
    rw [apply_ite Prod.snd]
    simp
  exact ⟨key, by rw [key]; rfl⟩


/-- Witness for C10: on the misbehaving demo engine (which never registers
factory dependencies), a transaction with unknown dependency `7` fails
the post-check, and the theorem applies: the stored records `[7]` survive
the failure and are returned by `get_last_tx_compressed_bytecodes`. -/
theorem vm_1_3_2_compression_failure_not_atomic_witness :
    (Vm132.inspect_transaction_with_bytecode_compression demoEngineNoRegister
        (fun b => b) (fun b => some b) ([] : List Unit)
        (⟨some [7]⟩ : Transaction Nat) true
        (Vm132.new ⟨[], [], 0⟩ ⟨TxExecutionMode.VerifyExecute, 0⟩ : Vm132 DemoInner Nat)).1
      = Except.error BytecodeCompressionError.BytecodeCompressionFailed
    ∧ Vm132.get_last_tx_compressed_bytecodes
        (Vm132.inspect_transaction_with_bytecode_compression demoEngineNoRegister
          (fun b => b) (fun b => some b) ([] : List Unit)
          (⟨some [7]⟩ : Transaction Nat) true
          (Vm132.new ⟨[], [], 0⟩ ⟨TxExecutionMode.VerifyExecute, 0⟩ : Vm132 DemoInner Nat)).2
      = (filtered_deps (fun b => b) (fun b => some b)
          (fun h => demoEngineNoRegister.is_bytecode_known h
            (Vm132.new ⟨[], [], 0⟩ ⟨TxExecutionMode.VerifyExecute, 0⟩ :
              Vm132 DemoInner Nat).vm)
          ((⟨some [7]⟩ : Transaction Nat).factory_deps.getD [])
          CompressState.init).compressed :=
  ⟨rfl,
    (vm_1_3_2_compression_failure_not_atomic demoEngineNoRegister
      (fun b => b) (fun b => some b) ([] : List Unit)
      (⟨some [7]⟩ : Transaction Nat)
      (Vm132.new ⟨[], [], 0⟩ ⟨TxExecutionMode.VerifyExecute, 0⟩) rfl).2⟩
